import Mathlib

/-!
Shallow embedding of `src/server.py` of the MCP_Options_Strategy repository.

The server registers two tool functions, `call_option` and `put_option`,
each returning a Python dict with keys `breakeven`, `max_profit` and
`max_loss`.  Dicts are embedded as association lists `List (String × Val)`
(Python dicts preserve insertion order), and the numeric values (Python
floats holding finite real quantities; the spec's data model is real
numbers) are embedded as rationals `ℚ`, over which the source's `+` and `-`
are exact.
-/

namespace OptionsStrategy

/-- A value occurring in a tool result: a finite number or a string
(the call evaluator stores the literal string "infinite" in
`max_profit`). -/
inductive Val where
  | num : ℚ → Val
  | str : String → Val
deriving DecidableEq, Repr

/-- Modelled from the spec: the `Call` class of the `options_library`
module, which `src/server.py` imports but which is not part of the
repository's source.  Per spec §4.1 it carries the strike and the premium
of a call contract. -/
structure Call where
  strike : ℚ
  premium : ℚ
deriving DecidableEq, Repr

/-- Modelled from the spec: `Call.breakeven`, per spec §4.1
`breakeven = strike + premium`. -/
def Call.breakeven (c : Call) : ℚ :=
  c.strike + c.premium

/-- Modelled from the spec: the `Put` class of the `options_library`
module, which `src/server.py` imports but which is not part of the
repository's source.  Per spec §4.2 it carries the strike and the premium
of a put contract. -/
structure Put where
  strike : ℚ
  premium : ℚ
deriving DecidableEq, Repr

/-- Modelled from the spec: `Put.breakeven`, per spec §4.2
`breakeven = strike − premium`. -/
def Put.breakeven (p : Put) : ℚ :=
  p.strike - p.premium

/-- `call_option` from `src/server.py` lines 13–33: builds
`Call(strike, premium)` and returns the dict
`{"breakeven": call.breakeven(), "max_profit": "infinite",
"max_loss": call.premium}`. -/
def call_option (strike premium : ℚ) : List (String × Val) :=
  let call : Call := ⟨strike, premium⟩
  [ ("breakeven", Val.num call.breakeven),
    ("max_profit", Val.str "infinite"),
    ("max_loss", Val.num call.premium) ]

/-- `put_option` from `src/server.py` lines 36–56: builds
`Put(strike, premium)` and returns the dict
`{"breakeven": put.breakeven(), "max_profit": strike - premium,
"max_loss": premium}`. -/
def put_option (strike premium : ℚ) : List (String × Val) :=
  let put : Put := ⟨strike, premium⟩
  [ ("breakeven", Val.num put.breakeven),
    ("max_profit", Val.num (strike - premium)),
    ("max_loss", Val.num premium) ]

/-- Dict lookup: the value stored under key `k`, if present. -/
def getVal (d : List (String × Val)) (k : String) : Option Val :=
  (d.find? (fun kv => kv.1 == k)).map (fun kv => kv.2)

/-- The keys of a result dict, in insertion order. -/
def keysOf (d : List (String × Val)) : List String :=
  d.map (fun kv => kv.1)

/-- An argument as supplied by the caller of a tool, before validation:
a finite number, a non-finite float (NaN or ±inf), or a value that is not
numeric at all. -/
inductive Arg where
  | finiteNum : ℚ → Arg
  | nonFinite : Arg
  | nonNumeric : Arg
deriving DecidableEq, Repr

/-- The single error of the spec's error taxonomy (spec §7). -/
inductive ToolError where
  | invalidInput : ToolError
deriving DecidableEq, Repr

/-- Modelled from the spec: the host dispatch layer's input validation
(spec §7), performed by the FastMCP framework around the tool functions
and not part of the repository's source.  A present, numeric, finite
argument yields its value; a non-numeric, non-finite or missing argument
is rejected as InvalidInput. -/
def validateArg : Option Arg → Except ToolError ℚ
  | some (Arg.finiteNum q) => Except.ok q
  | _ => Except.error ToolError.invalidInput

/-- The `call_option` tool as invoked through the dispatch layer:
validation of both arguments followed by the pure computation. -/
def invokeCall (strike premium : Option Arg) :
    Except ToolError (List (String × Val)) := do
  let s ← validateArg strike
  let p ← validateArg premium
  return call_option s p

/-- The `put_option` tool as invoked through the dispatch layer:
validation of both arguments followed by the pure computation. -/
def invokePut (strike premium : Option Arg) :
    Except ToolError (List (String × Val)) := do
  let s ← validateArg strike
  let p ← validateArg premium
  return put_option s p

/-- The FastMCP server instance created at `src/server.py` line 10: its
only datum is the namespace string "Demo_Options"; the source defines no
mutable field on it and no module-level mutable state. -/
structure FastMCP where
  name : String
deriving DecidableEq, Repr

/-- The `mcp` instance from `src/server.py` line 10. -/
def mcp : FastMCP :=
  ⟨"Demo_Options"⟩

/-- A request to one of the two registered tools. -/
inductive Request where
  | callReq : ℚ → ℚ → Request
  | putReq : ℚ → ℚ → Request
deriving DecidableEq, Repr

/-- Dispatch of a single request to the tool registered under its name. -/
def handle : Request → List (String × Val)
  | Request.callReq s p => call_option s p
  | Request.putReq s p => put_option s p

/-- Sequential servicing of a list of requests, threading the server
state through every invocation, as the host process does. -/
def runServer : List Request → FastMCP → List (List (String × Val)) × FastMCP
  | [], st => ([], st)
  | r :: rs, st =>
    let resp := handle r
    let rest := runServer rs st
    (resp :: rest.1, rest.2)

/-- The responses of a server run are the per-request results of `handle`,
independent of the server state, and the state comes out unchanged. -/
theorem runServer_eq_map (reqs : List Request) (st : FastMCP) :
    runServer reqs st = (reqs.map handle, st) := by
  induction reqs with
  | nil => rfl
  | cons r rs ih => simp [runServer, ih]

/-- C1: for every finite strike > 0 and premium ≥ 0, the call-option
evaluator returns a result whose breakeven field equals
strike + premium. -/
theorem call_breakeven_eq (strike premium : ℚ)
    (hs : 0 < strike) (hp : 0 ≤ premium) :
    getVal (call_option strike premium) "breakeven" =
      some (Val.num (strike + premium)) :=
  rfl

/-- Witness for C1 at strike = 100, premium = 5. -/
theorem call_breakeven_eq_witness :
    (0 : ℚ) < 100 ∧ (0 : ℚ) ≤ 5 ∧
      getVal (call_option 100 5) "breakeven" = some (Val.num 105) :=
  ⟨by norm_num, by norm_num, by
    have h := call_breakeven_eq 100 5 (by norm_num) (by norm_num)
    rw [h]; norm_num⟩

/-- C2: for every finite strike > 0 and premium ≥ 0, the put-option
evaluator returns a result whose breakeven field equals
strike − premium. -/
theorem put_breakeven_eq (strike premium : ℚ)
    (hs : 0 < strike) (hp : 0 ≤ premium) :
    getVal (put_option strike premium) "breakeven" =
      some (Val.num (strike - premium)) :=
  rfl

/-- Witness for C2 at strike = 100, premium = 5. -/
theorem put_breakeven_eq_witness :
    (0 : ℚ) < 100 ∧ (0 : ℚ) ≤ 5 ∧
      getVal (put_option 100 5) "breakeven" = some (Val.num 95) :=
  ⟨by norm_num, by norm_num, by
    have h := put_breakeven_eq 100 5 (by norm_num) (by norm_num)
    rw [h]; norm_num⟩

/-- C3: for every input, the call-option evaluator's max_profit field is
the literal string "infinite" and is never a finite number. -/
theorem call_max_profit_infinite (strike premium : ℚ) :
    getVal (call_option strike premium) "max_profit" =
      some (Val.str "infinite") ∧
    ∀ q : ℚ, getVal (call_option strike premium) "max_profit" ≠
      some (Val.num q) := by
  refine ⟨rfl, fun q h => ?_⟩
  simp [getVal, call_option] at h

/-- C4: for every input, the put-option evaluator's max_profit field
equals strike − premium, returned as computed without clamping; in
particular it is ≤ 0 whenever premium ≥ strike. -/
theorem put_max_profit_eq (strike premium : ℚ) :
    getVal (put_option strike premium) "max_profit" =
      some (Val.num (strike - premium)) ∧
    (strike ≤ premium → strike - premium ≤ 0) :=
  ⟨rfl, fun h => by linarith⟩

/-- C5: for every input, both evaluators return a result whose max_loss
field equals the premium argument. -/
theorem max_loss_eq_premium (strike premium : ℚ) :
    getVal (call_option strike premium) "max_loss" =
      some (Val.num premium) ∧
    getVal (put_option strike premium) "max_loss" =
      some (Val.num premium) :=
  ⟨rfl, rfl⟩

/-- C6: both evaluators are deterministic and idempotent: servicing any
request list yields, for each request, exactly `handle` of that request —
independent of the server state and of the surrounding requests — and
leaves the server state unchanged, so no hidden state influences or is
influenced by a call. -/
theorem evaluators_deterministic_stateless
    (before₁ before₂ : List Request) (r : Request)
    (st₁ st₂ : FastMCP) :
    (runServer (before₁ ++ [r]) st₁).1.getLast? =
      (runServer (before₂ ++ [r]) st₂).1.getLast? ∧
    (runServer (before₁ ++ [r]) st₁).2 = st₁ ∧
    (runServer (before₂ ++ [r]) st₂).2 = st₂ := by
  simp [runServer_eq_map]

/-- C7: every result of either evaluator is a mapping with exactly the
keys breakeven, max_profit and max_loss, and its max_profit value is
either a number or the literal string "infinite". -/
theorem result_shape (strike premium : ℚ) :
    keysOf (call_option strike premium) =
      ["breakeven", "max_profit", "max_loss"] ∧
    keysOf (put_option strike premium) =
      ["breakeven", "max_profit", "max_loss"] ∧
    (∃ v, getVal (call_option strike premium) "max_profit" = some v ∧
      ((∃ q : ℚ, v = Val.num q) ∨ v = Val.str "infinite")) ∧
    (∃ v, getVal (put_option strike premium) "max_profit" = some v ∧
      ((∃ q : ℚ, v = Val.num q) ∨ v = Val.str "infinite")) :=
  ⟨rfl, rfl,
    ⟨Val.str "infinite", rfl, Or.inr rfl⟩,
    ⟨Val.num (strike - premium), rfl, Or.inl ⟨strike - premium, rfl⟩⟩⟩

/-- C8: neither evaluator performs domain-specific validation: every pair
of finite numeric arguments — including zero or negative strike and
negative premium — succeeds with the computed result, and any
non-numeric, non-finite or missing argument fails with InvalidInput, the
only failure mode. -/
theorem no_domain_validation (a b : Option Arg) :
    (∀ s p : ℚ, a = some (Arg.finiteNum s) → b = some (Arg.finiteNum p) →
      invokeCall a b = Except.ok (call_option s p) ∧
      invokePut a b = Except.ok (put_option s p)) ∧
    ((∀ s : ℚ, a ≠ some (Arg.finiteNum s)) ∨
        (∀ p : ℚ, b ≠ some (Arg.finiteNum p)) →
      invokeCall a b = Except.error ToolError.invalidInput ∧
      invokePut a b = Except.error ToolError.invalidInput) := by
  constructor
  · rintro s p rfl rfl
    exact ⟨rfl, rfl⟩
  · rintro (ha | hb)
    · rcases a with _ | (q | _ | _)
      · exact ⟨rfl, rfl⟩
      · exact absurd rfl (ha q)
      · exact ⟨rfl, rfl⟩
      · exact ⟨rfl, rfl⟩
    · rcases a with _ | (q | _ | _)
      · exact ⟨rfl, rfl⟩
      · rcases b with _ | (r | _ | _)
        · exact ⟨rfl, rfl⟩
        · exact absurd rfl (hb r)
        · exact ⟨rfl, rfl⟩
        · exact ⟨rfl, rfl⟩
      · exact ⟨rfl, rfl⟩
      · exact ⟨rfl, rfl⟩

/-- Witness for C8: a negative strike and a negative premium are accepted
and computed, while a missing argument is rejected as InvalidInput. -/
theorem no_domain_validation_witness :
    invokeCall (some (Arg.finiteNum (-3))) (some (Arg.finiteNum (-2))) =
      Except.ok (call_option (-3) (-2)) ∧
    invokePut none (some (Arg.finiteNum 5)) =
      Except.error ToolError.invalidInput := by
  refine ⟨((no_domain_validation (some (Arg.finiteNum (-3)))
    (some (Arg.finiteNum (-2)))).1 (-3) (-2) rfl rfl).1, ?_⟩
  exact ((no_domain_validation none (some (Arg.finiteNum 5))).2
    (Or.inl (fun s h => by cases h))).2

/-- C9: for every input, the put-option evaluator's max_profit field
equals its breakeven field. -/
theorem put_max_profit_eq_breakeven (strike premium : ℚ) :
    getVal (put_option strike premium) "max_profit" =
      getVal (put_option strike premium) "breakeven" :=
  rfl

/-- C10: for every input, the call-option breakeven exceeds the
put-option breakeven on the same input by exactly 2 · premium. -/
theorem breakeven_spread (strike premium : ℚ) :
    ∃ bc bp : ℚ,
      getVal (call_option strike premium) "breakeven" =
        some (Val.num bc) ∧
      getVal (put_option strike premium) "breakeven" =
        some (Val.num bp) ∧
      bc - bp = 2 * premium :=
  ⟨strike + premium, strike - premium, rfl, rfl, by ring⟩

end OptionsStrategy
